import Mathlib

/-
Shallow embedding of the AF_PACKET header-interpretation core
(src/afpacket/cgo/types.go, pure-Go half: V1header / V2header / V3header
and the shared utilities tpAlign and insertVlanHeader).

Modelling conventions:
- Go machine integers are modelled as Nat (unsigned fields) or Int
  (Go `int`), with explicit `% 2^w` at every operation where Go's
  fixed-width wrap-around can matter (uint/uintptr arithmetic, uint64→int
  conversion).
- Pointers into the mapped block are modelled as byte addresses (`Nat`)
  together with a memory view `Mem : Nat → TpPacket` giving the packet
  record overlaid at each address; `w.Packet` in the source corresponds
  to `mem w.PacketAddr` here.
- `time.Time` values are modelled by the instant they denote, as
  nanoseconds since the Unix epoch (`Int`).
- Byte slices are `List Nat`; a Go slice-bounds panic is modelled by an
  `Option` result being `none`.
-/

namespace Afpacket

/-- goUint64OfInt models Go's conversion int → uint (64-bit platform):
two's-complement reinterpretation, i.e. reduction mod 2^64. -/
def goUint64OfInt (x : Int) : Nat := (x % (2 ^ 64 : Int)).toNat

/-- goIntOfUint64 models Go's conversion uint/uint64 → int (64-bit
platform): values at or above 2^63 wrap to negative. -/
def goIntOfUint64 (u : Nat) : Int :=
  if u < 2 ^ 63 then (u : Int) else (u : Int) - 2 ^ 64

/-- goByte models Go's conversion int → byte: the low 8 bits. -/
def goByte (x : Int) : Nat := (x % (256 : Int)).toNat

/-- VlanHlen from types.go. -/
def VlanHlen : Nat := 4

/-- EthAlen from types.go. -/
def EthAlen : Nat := 6

/-- StatusVlanValid from types.go (= unix.TP_STATUS_VLAN_VALID). -/
def StatusVlanValid : Nat := 0x10

/-- tpacketAlignment from types.go (= unix.TPACKET_ALIGNMENT). -/
def tpacketAlignment : Nat := 16

/-- tpAlign from types.go:
`int((uint(x) + tpacketAlignment - 1) &^ (tpacketAlignment - 1))`.
The addition is uint (wraps mod 2^64) and `&^ 15` is AND with the
64-bit complement of 15, i.e. with `2^64 - 16`. -/
def tpAlign (x : Int) : Int :=
  goIntOfUint64
    (((goUint64OfInt x + tpacketAlignment - 1) % 2 ^ 64) &&&
      (2 ^ 64 - tpacketAlignment))

/-- options: the configuration consumed by insertVlanHeader; only the
recognized field addVLANHeader is modelled. -/
structure options where
  addVLANHeader : Bool

/-- insertVlanHeader from types.go. When vlanTCI is zero or the option
is off it returns the payload unchanged; otherwise it rebuilds the
frame as `data[0:12] ++ [0x81, 0, byte((tci>>8)&0xff), byte(tci&0xff)]
++ data[12:]`. The slice expressions `data[0:12]` / `data[12:]` panic
in Go when the payload is shorter than 12 bytes; the panic is modelled
as `none`. -/
def insertVlanHeader (data : List Nat) (vlanTCI : Int) (opts : options) :
    Option (List Nat) :=
  if vlanTCI = 0 ∨ opts.addVLANHeader = false then some data
  else if data.length < EthAlen * 2 then none
  else some (data.take (EthAlen * 2) ++
    [0x81, 0, goByte ((vlanTCI >>> (8 : Int)).land 0xff),
      goByte (vlanTCI.land 0xff)] ++
    data.drop (EthAlen * 2))

/-- timeUnix models the instant `time.Unix(sec, nsec)` denotes, in
nanoseconds since the epoch. -/
def timeUnix (sec nsec : Int) : Int := sec * 1000000000 + nsec

/-- V1header from types.go (TPACKET_V1 frame header). Field widths:
Status uint64; Len, Snaplen, Sec, Usec uint32; Mac, Net uint16. -/
structure V1header where
  Status : Nat
  Len : Nat
  Snaplen : Nat
  Mac : Nat
  Net : Nat
  Sec : Nat
  Usec : Nat
  Padding : List Nat

/-- V2header from types.go (TPACKET_V2 frame header). Field widths:
Status, Len, Snaplen, Sec, Nsec uint32; Mac, Net, VlanTci,
VlanTpid uint16. -/
structure V2header where
  Status : Nat
  Len : Nat
  Snaplen : Nat
  Mac : Nat
  Net : Nat
  Sec : Nat
  Nsec : Nat
  VlanTci : Nat
  VlanTpid : Nat
  Padding : List Nat

/-- TpacketHdrVariant1 from types.go: the extension word set of a
packet within a TPACKET_V3 block. -/
structure TpacketHdrVariant1 where
  TpRxhash : Nat
  TpVlanTci : Nat
  TpVlanTpid : Nat
  Padding : Nat

/-- TpPacketBdTs from types.go. -/
structure TpPacketBdTs where
  Sec : Nat
  Usec : Nat

/-- TpPacket from types.go: the header of one packet inside a
TPACKET_V3 block. -/
structure TpPacket where
  TpNextOffset : Nat
  Tp_sec : Nat
  Tp_nsec : Nat
  Tp_snaplen : Nat
  Tp_len : Nat
  Tp_status : Nat
  Tp_mac : Nat
  Tp_net : Nat
  Tp_hv1 : TpacketHdrVariant1
  Padding : List Nat

/-- TpacketHdrV1 from types.go: the block-level header of a
TPACKET_V3 block. -/
structure TpacketHdrV1 where
  BlockStatus : Nat
  NumPkts : Nat
  OffsetToFirstPkt : Nat
  BlkLen : Nat
  SeqNum : Nat
  TsFirstPkt : TpPacketBdTs
  TsLastPkt : TpPacketBdTs

/-- Mem: the mapped block viewed as the TpPacket record overlaid at
each byte address; stands for dereferencing the `*TpPacket` pointer. -/
abbrev Mem := Nat → TpPacket

/-- V3header from types.go. The Go struct holds pointers Block,
Blockhdr, Packet plus the cursor `used`; here the block header is
carried by value and the two pointers are byte addresses. -/
structure V3header where
  BlockAddr : Nat
  Blockhdr : TpacketHdrV1
  PacketAddr : Nat
  used : Nat

/-- initV3Wrapper from types.go: the view starts with a zero cursor
(Go zero value) and the packet pointer at block + OffsetToFirstPkt
(uintptr addition, mod 2^64). -/
def initV3Wrapper (block : Nat) (bh : TpacketHdrV1) : V3header :=
  { BlockAddr := block
    Blockhdr := bh
    PacketAddr := (block + bh.OffsetToFirstPkt) % 2 ^ 64
    used := 0 }

/-- V1header.getVLAN from types.go: always -1. -/
def V1header.getVLAN (_h : V1header) : Int := -1

/-- V1header.getStatus from types.go: `int(h.Status)` with Status a
uint64, hence a wrapping conversion. -/
def V1header.getStatus (h : V1header) : Int := goIntOfUint64 h.Status

/-- V1header.clearStatus from types.go: `h.Status = 0`. -/
def V1header.clearStatus (h : V1header) : V1header := { h with Status := 0 }

/-- V1header.getTime from types.go:
`time.Unix(int64(h.Sec), int64(h.Usec)*1000)`. -/
def V1header.getTime (h : V1header) : Int :=
  timeUnix (h.Sec : Int) ((h.Usec : Int) * 1000)

/-- V1header.getLength from types.go. -/
def V1header.getLength (h : V1header) : Int := (h.Len : Int)

/-- V1header.next from types.go: always false. -/
def V1header.next (_h : V1header) : Bool := false

/-- V2header.getVLAN from types.go: always -1 (the VlanTci field is
not consulted here). -/
def V2header.getVLAN (_h : V2header) : Int := -1

/-- V2header.getStatus from types.go: `int(h.Status)` with Status a
uint32, value-preserving on a 64-bit platform. -/
def V2header.getStatus (h : V2header) : Int := (h.Status : Int)

/-- V2header.clearStatus from types.go: `h.Status = 0`. -/
def V2header.clearStatus (h : V2header) : V2header := { h with Status := 0 }

/-- V2header.getTime from types.go:
`time.Unix(int64(h.Sec), int64(h.Nsec))`. -/
def V2header.getTime (h : V2header) : Int :=
  timeUnix (h.Sec : Int) (h.Nsec : Int)

/-- V2header.getLength from types.go. -/
def V2header.getLength (h : V2header) : Int := (h.Len : Int)

/-- V2header.next from types.go: always false. -/
def V2header.next (_h : V2header) : Bool := false

/-- V3header.getVLAN from types.go: the current packet's 12-bit VLAN
TCI when the out-of-band-valid status bit is set, else -1. -/
def V3header.getVLAN (mem : Mem) (w : V3header) : Int :=
  if (mem w.PacketAddr).Tp_status &&& StatusVlanValid ≠ 0 then
    (((mem w.PacketAddr).Tp_hv1.TpVlanTci &&& 0xfff : Nat) : Int)
  else -1

/-- V3header.getStatus from types.go: the block-level status word. -/
def V3header.getStatus (w : V3header) : Int := (w.Blockhdr.BlockStatus : Int)

/-- V3header.clearStatus from types.go: `w.Blockhdr.BlockStatus = 0`. -/
def V3header.clearStatus (w : V3header) : V3header :=
  { w with Blockhdr := { w.Blockhdr with BlockStatus := 0 } }

/-- V3header.getTime from types.go:
`time.Unix(int64(w.Packet.Tp_sec), int64(w.Packet.Tp_nsec))`. -/
def V3header.getTime (mem : Mem) (w : V3header) : Int :=
  timeUnix ((mem w.PacketAddr).Tp_sec : Int) ((mem w.PacketAddr).Tp_nsec : Int)

/-- V3header.getLength from types.go. -/
def V3header.getLength (mem : Mem) (w : V3header) : Int :=
  ((mem w.PacketAddr).Tp_len : Int)

/-- V3header.next from types.go: increments the uint32 cursor; when it
reaches the block's packet count, returns false; otherwise repositions
the packet pointer by the packet's explicit next-offset when nonzero,
else by `tpAlign(snaplen + mac)` (uintptr arithmetic, mod 2^64), and
returns true. -/
def V3header.next (mem : Mem) (w : V3header) : Bool × V3header :=
  let used := (w.used + 1) % 2 ^ 32
  if w.Blockhdr.NumPkts ≤ used then (false, { w with used := used })
  else
    let p := mem w.PacketAddr
    let nextAddr :=
      if p.TpNextOffset ≠ 0 then (w.PacketAddr + p.TpNextOffset) % 2 ^ 64
      else
        (w.PacketAddr +
          goUint64OfInt (tpAlign ((p.Tp_snaplen : Int) + (p.Tp_mac : Int)))) % 2 ^ 64
    (true, { w with used := used, PacketAddr := nextAddr })

/-- TpV3Hdr from types.go (cgo half): the same wrapper shape as
V3header — block pointer, block header pointer, current-packet pointer
and the uint32 cursor — with the pointers modelled as byte addresses
and the block header carried by value. Its packets are the same
tpacket3_hdr records, so the Mem view is shared with V3header. -/
structure TpV3Hdr where
  blockAddr : Nat
  blockhdr : TpacketHdrV1
  packetAddr : Nat
  used : Nat

/-- TpV3Hdr.getVLAN from types.go (cgo half). Unlike V3header.getVLAN,
the source overlays HeaderVariant1 on `unsafe.Pointer(&w.packet)` — the
address of the wrapper's own packet POINTER field, not of the packet's
extension words. On little-endian amd64 the overlay's Vlan_tci field
(uint32 at byte offset 4) therefore reads the high 32 bits of the
packet pointer, so when the VLAN-valid bit is set the function returns
pointer bits masked to 12 bits, not the packet's TCI. -/
def TpV3Hdr.getVLAN (mem : Mem) (w : TpV3Hdr) : Int :=
  if (mem w.packetAddr).Tp_status &&& StatusVlanValid ≠ 0 then
    ((((w.packetAddr >>> 32) % 2 ^ 32) &&& 0xfff : Nat) : Int)
  else -1

/-- Helper: the uint64 → int conversion is the identity below 2^63. -/
lemma goIntOfUint64_of_lt {u : Nat} (h : u < 2 ^ 63) : goIntOfUint64 u = (u : Int) := by
  unfold goIntOfUint64
  rw [if_pos h]

/-- Helper: the int → uint64 conversion is the identity on naturals below 2^64. -/
lemma goUint64OfInt_ofNat {n : Nat} (h : n < 2 ^ 64) : goUint64OfInt (n : Int) = n := by
  unfold goUint64OfInt
  rw [Int.emod_eq_of_lt (by positivity) (by exact_mod_cast h)]
  exact Int.toNat_natCast n

/-- Helper: AND with the 64-bit complement of 15 clears the low four bits. -/
lemma land_mask16 {n : Nat} (h : n < 2 ^ 64) :
    n &&& (2 ^ 64 - 16) = n / 16 * 16 := by
  have hmask : (2 ^ 64 - 16 : Nat) = (2 ^ 60 - 1) <<< 4 := by
    rw [Nat.shiftLeft_eq]; norm_num
  have hrhs : n / 16 * 16 = (n >>> 4) <<< 4 := by
    rw [Nat.shiftLeft_eq, Nat.shiftRight_eq_div_pow]
  rw [hmask, hrhs]
  apply Nat.eq_of_testBit_eq
  intro i
  simp only [Nat.testBit_and, Nat.testBit_shiftLeft, Nat.testBit_shiftRight,
    Nat.testBit_two_pow_sub_one]
  by_cases h4 : 4 ≤ i
  · have hi : 4 + (i - 4) = i := by omega
    by_cases h60 : i - 4 < 60
    · simp [h4, h60, hi]
    · have h64 : 2 ^ 64 ≤ 2 ^ i := Nat.pow_le_pow_right (by norm_num) (by omega)
      have hbit : n.testBit i = false := Nat.testBit_lt_two_pow (lt_of_lt_of_le h h64)
      simp [h4, h60, hi, hbit]
  · simp [h4]

/-- Helper: on naturals whose rounded value stays below 2^63, tpAlign is
rounding up to the next multiple of 16. -/
lemma tpAlign_ofNat {n : Nat} (h : n + 15 < 2 ^ 63) :
    tpAlign (n : Int) = (((n + 15) / 16 * 16 : Nat) : Int) := by
  unfold tpAlign
  have h64 : n < 2 ^ 64 := by omega
  rw [goUint64OfInt_ofNat h64]
  have h1 : n + tpacketAlignment - 1 = n + 15 := by simp [tpacketAlignment]
  have h2 : (n + 15) % 2 ^ 64 = n + 15 := Nat.mod_eq_of_lt (by omega)
  have h3 : (2 : Nat) ^ 64 - tpacketAlignment = 2 ^ 64 - 16 := by simp [tpacketAlignment]
  rw [h1, h2, h3, land_mask16 (by omega)]
  exact goIntOfUint64_of_lt (by omega)

/-- C5 (amended): for every non-negative x with x + 15 < 2^63 (so that the
uint-domain rounding result converts back to the same int), tpAlign x is the
smallest multiple of 16 that is ≥ x; in particular tpAlign 0 = 0,
tpAlign 1 = 16, tpAlign 16 = 16 and tpAlign 17 = 32. -/
theorem tpAlign_least_multiple (x : Int) (h0 : 0 ≤ x) (hlt : x + 15 < 2 ^ 63) :
    x ≤ tpAlign x ∧ (16 : Int) ∣ tpAlign x ∧
    (∀ y : Int, x ≤ y → (16 : Int) ∣ y → tpAlign x ≤ y) ∧
    tpAlign 0 = 0 ∧ tpAlign 1 = 16 ∧ tpAlign 16 = 16 ∧ tpAlign 17 = 32 := by
  obtain ⟨n, rfl⟩ := Int.eq_ofNat_of_zero_le h0
  have hn : n + 15 < 2 ^ 63 := by exact_mod_cast hlt
  rw [tpAlign_ofNat hn]
  refine ⟨?_, ?_, ?_, ?_, ?_, ?_, ?_⟩
  · exact_mod_cast Nat.le_of_lt_succ (by omega : n < (n + 15) / 16 * 16 + 1)
  · exact_mod_cast (dvd_mul_left 16 ((n + 15) / 16) : (16 : Nat) ∣ (n + 15) / 16 * 16)
  · intro y hxy hdy
    have hy0 : (0 : Int) ≤ y := le_trans (by positivity) hxy
    obtain ⟨m, rfl⟩ := Int.eq_ofNat_of_zero_le hy0
    have hnm : n ≤ m := by exact_mod_cast hxy
    have hdm : 16 ∣ m := by exact_mod_cast hdy
    have : (n + 15) / 16 * 16 ≤ m := by omega
    exact_mod_cast this
  · decide
  · decide
  · decide
  · decide

/-- C5 witness: the amended statement instantiated at x = 17. -/
theorem tpAlign_least_multiple_witness :
    (17 : Int) ≤ tpAlign 17 ∧ (16 : Int) ∣ tpAlign 17 ∧
    (∀ y : Int, 17 ≤ y → (16 : Int) ∣ y → tpAlign 17 ≤ y) ∧
    tpAlign 0 = 0 ∧ tpAlign 1 = 16 ∧ tpAlign 16 = 16 ∧ tpAlign 17 = 32 :=
  tpAlign_least_multiple 17 (by norm_num) (by norm_num)

/-- C5 counterexample: at x = 2^63 - 1 (a valid non-negative Go int) the
uint-domain rounding overflows into the sign bit and the int conversion
wraps, so tpAlign returns a negative value, not the smallest multiple of
16 that is ≥ x. -/
theorem tpAlign_counterexample_max_int :
    tpAlign (2 ^ 63 - 1) = -(2 ^ 63) ∧ tpAlign (2 ^ 63 - 1) < 2 ^ 63 - 1 := by
  constructor <;> decide

/-- C1 counterexample: two cited implementations falsify the claim at
concrete inputs. A variant-B header with the out-of-band VLAN-valid bit
0x10 set and VLAN TCI 5 must, per the claim, yield 5 (= 5 & 0xfff), but
V2header.getVLAN returns -1 unconditionally. And the cgo variant-C
TpV3Hdr.getVLAN, on a packet with the bit set and TCI 5 reached through
the pointer 0xabc00000030, returns 0xabc — the high pointer bits masked
to 12 bits — instead of 5. -/
theorem getVLAN_counterexample :
    (V2header.Status ⟨0x10, 60, 60, 66, 80, 0, 0, 5, 0x8100, []⟩ &&& StatusVlanValid ≠ 0) ∧
    ((5 : Nat) &&& 0xfff = 5) ∧
    V2header.getVLAN ⟨0x10, 60, 60, 66, 80, 0, 0, 5, 0x8100, []⟩ = -1 ∧
    ((-1 : Int) ≠ 5) ∧
    (((fun _ => ⟨0, 0, 0, 0, 0, 0x10, 0, 0, ⟨0, 5, 0, 0⟩, []⟩ : Mem)
        (TpV3Hdr.packetAddr ⟨0, ⟨1, 3, 48, 512, 0, ⟨0, 0⟩, ⟨0, 0⟩⟩, 0xabc00000030, 0⟩)).Tp_status &&&
      StatusVlanValid ≠ 0) ∧
    TpV3Hdr.getVLAN (fun _ => ⟨0, 0, 0, 0, 0, 0x10, 0, 0, ⟨0, 5, 0, 0⟩, []⟩)
      ⟨0, ⟨1, 3, 48, 512, 0, ⟨0, 0⟩, ⟨0, 0⟩⟩, 0xabc00000030, 0⟩ = 0xabc ∧
    ((0xabc : Int) ≠ 5) := by
  refine ⟨by decide, by decide, rfl, by decide, by decide, by decide, by decide⟩

/-- C1 (amended): getVLAN returns -1 for every variant-A header and for
every variant-B header, irrespective of their bytes. For variant C both
implementations return -1 when the out-of-band VLAN-valid status bit
(0x10) is unset in the current packet's status; when it is set, the
pure-Go V3header.getVLAN returns the packet's VLAN TCI masked to 12
bits, while the cgo TpV3Hdr.getVLAN — which overlays the extension
record on the address of its own packet pointer field — returns the
high 32 bits of the packet pointer masked to 12 bits, not the TCI. -/
theorem getVLAN_variants (h1 : V1header) (h2 : V2header) (mem : Mem)
    (w : V3header) (wc : TpV3Hdr) :
    h1.getVLAN = -1 ∧ h2.getVLAN = -1 ∧
    ((mem w.PacketAddr).Tp_status &&& StatusVlanValid = 0 →
      V3header.getVLAN mem w = -1) ∧
    ((mem w.PacketAddr).Tp_status &&& StatusVlanValid ≠ 0 →
      V3header.getVLAN mem w = (((mem w.PacketAddr).Tp_hv1.TpVlanTci % 2 ^ 12 : Nat) : Int)) ∧
    ((mem wc.packetAddr).Tp_status &&& StatusVlanValid = 0 →
      TpV3Hdr.getVLAN mem wc = -1) ∧
    ((mem wc.packetAddr).Tp_status &&& StatusVlanValid ≠ 0 →
      TpV3Hdr.getVLAN mem wc = ((wc.packetAddr / 2 ^ 32 % 2 ^ 12 : Nat) : Int)) := by
  have h12 : (0xfff : Nat) = 2 ^ 12 - 1 := by norm_num
  refine ⟨rfl, rfl, ?_, ?_, ?_, ?_⟩
  · intro h
    simp [V3header.getVLAN, h]
  · intro h
    have hmask : (mem w.PacketAddr).Tp_hv1.TpVlanTci &&& 0xfff =
        (mem w.PacketAddr).Tp_hv1.TpVlanTci % 2 ^ 12 := by
      rw [h12, Nat.and_pow_two_sub_one_eq_mod]
    simp [V3header.getVLAN, h, hmask]
  · intro h
    simp [TpV3Hdr.getVLAN, h]
  · intro h
    have hptr : ((wc.packetAddr >>> 32) % 2 ^ 32) &&& 0xfff =
        wc.packetAddr / 2 ^ 32 % 2 ^ 12 := by
      rw [h12, Nat.and_pow_two_sub_one_eq_mod,
        Nat.mod_mod_of_dvd _ (pow_dvd_pow 2 (by norm_num : 12 ≤ 32)),
        Nat.shiftRight_eq_div_pow]
    unfold TpV3Hdr.getVLAN
    rw [if_pos h]
    exact_mod_cast hptr

/-- C1 witness: the amended statement at concrete variant-A/B headers,
at a pure-Go variant-C view whose current packet has the valid bit set
and TCI 0x1abc, and at a cgo variant-C view over the same memory with
packet pointer 0x1abc00000030, where the result is the high pointer
bits masked to 12 bits. -/
theorem getVLAN_variants_witness :
    V1header.getVLAN ⟨1, 2, 3, 4, 5, 6, 7, []⟩ = -1 ∧
    V2header.getVLAN ⟨1, 2, 3, 4, 5, 6, 7, 8, 9, []⟩ = -1 ∧
    V3header.getVLAN (fun _ => ⟨0, 0, 0, 0, 0, 0x10, 0, 0, ⟨0, 0x1abc, 0, 0⟩, []⟩)
      ⟨0, ⟨1, 3, 48, 512, 0, ⟨0, 0⟩, ⟨0, 0⟩⟩, 48, 0⟩ = ((0x1abc % 2 ^ 12 : Nat) : Int) ∧
    TpV3Hdr.getVLAN (fun _ => ⟨0, 0, 0, 0, 0, 0x10, 0, 0, ⟨0, 0x1abc, 0, 0⟩, []⟩)
      ⟨0, ⟨1, 3, 48, 512, 0, ⟨0, 0⟩, ⟨0, 0⟩⟩, 0x1abc00000030, 0⟩ =
      ((0x1abc00000030 / 2 ^ 32 % 2 ^ 12 : Nat) : Int) :=
  ⟨(getVLAN_variants ⟨1, 2, 3, 4, 5, 6, 7, []⟩ ⟨1, 2, 3, 4, 5, 6, 7, 8, 9, []⟩
      (fun _ => ⟨0, 0, 0, 0, 0, 0x10, 0, 0, ⟨0, 0x1abc, 0, 0⟩, []⟩)
      ⟨0, ⟨1, 3, 48, 512, 0, ⟨0, 0⟩, ⟨0, 0⟩⟩, 48, 0⟩
      ⟨0, ⟨1, 3, 48, 512, 0, ⟨0, 0⟩, ⟨0, 0⟩⟩, 0x1abc00000030, 0⟩).1,
   (getVLAN_variants ⟨1, 2, 3, 4, 5, 6, 7, []⟩ ⟨1, 2, 3, 4, 5, 6, 7, 8, 9, []⟩
      (fun _ => ⟨0, 0, 0, 0, 0, 0x10, 0, 0, ⟨0, 0x1abc, 0, 0⟩, []⟩)
      ⟨0, ⟨1, 3, 48, 512, 0, ⟨0, 0⟩, ⟨0, 0⟩⟩, 48, 0⟩
      ⟨0, ⟨1, 3, 48, 512, 0, ⟨0, 0⟩, ⟨0, 0⟩⟩, 0x1abc00000030, 0⟩).2.1,
   (getVLAN_variants ⟨1, 2, 3, 4, 5, 6, 7, []⟩ ⟨1, 2, 3, 4, 5, 6, 7, 8, 9, []⟩
      (fun _ => ⟨0, 0, 0, 0, 0, 0x10, 0, 0, ⟨0, 0x1abc, 0, 0⟩, []⟩)
      ⟨0, ⟨1, 3, 48, 512, 0, ⟨0, 0⟩, ⟨0, 0⟩⟩, 48, 0⟩
      ⟨0, ⟨1, 3, 48, 512, 0, ⟨0, 0⟩, ⟨0, 0⟩⟩, 0x1abc00000030, 0⟩).2.2.2.1 (by decide),
   (getVLAN_variants ⟨1, 2, 3, 4, 5, 6, 7, []⟩ ⟨1, 2, 3, 4, 5, 6, 7, 8, 9, []⟩
      (fun _ => ⟨0, 0, 0, 0, 0, 0x10, 0, 0, ⟨0, 0x1abc, 0, 0⟩, []⟩)
      ⟨0, ⟨1, 3, 48, 512, 0, ⟨0, 0⟩, ⟨0, 0⟩⟩, 48, 0⟩
      ⟨0, ⟨1, 3, 48, 512, 0, ⟨0, 0⟩, ⟨0, 0⟩⟩, 0x1abc00000030, 0⟩).2.2.2.2.2 (by decide)⟩

/-- C9: for every variant-A and every variant-B header, whatever the
field values, the first call to next returns false. -/
theorem v1_v2_next_always_false (h1 : V1header) (h2 : V2header) :
    h1.next = false ∧ h2.next = false :=
  ⟨rfl, rfl⟩

/-- C6: for every variant, clearStatus zeroes the status word — a
subsequent getStatus returns 0 — and leaves every other field of the
header (and, for variant C, the packet cursor, the packet pointer and
the block memory, which clearStatus never touches) unchanged. -/
theorem clearStatus_clears_only_status (h1 : V1header) (h2 : V2header) (w : V3header) :
    h1.clearStatus.getStatus = 0 ∧ h1.clearStatus.Status = 0 ∧
    h1.clearStatus.Len = h1.Len ∧ h1.clearStatus.Snaplen = h1.Snaplen ∧
    h1.clearStatus.Mac = h1.Mac ∧ h1.clearStatus.Net = h1.Net ∧
    h1.clearStatus.Sec = h1.Sec ∧ h1.clearStatus.Usec = h1.Usec ∧
    h1.clearStatus.Padding = h1.Padding ∧
    h2.clearStatus.getStatus = 0 ∧ h2.clearStatus.Status = 0 ∧
    h2.clearStatus.Len = h2.Len ∧ h2.clearStatus.Snaplen = h2.Snaplen ∧
    h2.clearStatus.Mac = h2.Mac ∧ h2.clearStatus.Net = h2.Net ∧
    h2.clearStatus.Sec = h2.Sec ∧ h2.clearStatus.Nsec = h2.Nsec ∧
    h2.clearStatus.VlanTci = h2.VlanTci ∧ h2.clearStatus.VlanTpid = h2.VlanTpid ∧
    h2.clearStatus.Padding = h2.Padding ∧
    w.clearStatus.getStatus = 0 ∧ w.clearStatus.Blockhdr.BlockStatus = 0 ∧
    w.clearStatus.BlockAddr = w.BlockAddr ∧
    w.clearStatus.Blockhdr.NumPkts = w.Blockhdr.NumPkts ∧
    w.clearStatus.Blockhdr.OffsetToFirstPkt = w.Blockhdr.OffsetToFirstPkt ∧
    w.clearStatus.Blockhdr.BlkLen = w.Blockhdr.BlkLen ∧
    w.clearStatus.Blockhdr.SeqNum = w.Blockhdr.SeqNum ∧
    w.clearStatus.Blockhdr.TsFirstPkt = w.Blockhdr.TsFirstPkt ∧
    w.clearStatus.Blockhdr.TsLastPkt = w.Blockhdr.TsLastPkt ∧
    w.clearStatus.PacketAddr = w.PacketAddr ∧
    w.clearStatus.used = w.used ∧
    (∀ mem : Mem, V3header.getTime mem w.clearStatus = V3header.getTime mem w) := by
  refine ⟨?_, rfl, rfl, rfl, rfl, rfl, rfl, rfl, rfl,
    rfl, rfl, rfl, rfl, rfl, rfl, rfl, rfl, rfl, rfl, rfl,
    rfl, rfl, rfl, rfl, rfl, rfl, rfl, rfl, rfl, rfl, rfl, fun _ => rfl⟩
  show goIntOfUint64 0 = 0
  decide

/-- C7: a variant-A header with seconds S and microseconds U yields the
same instant as a variant-B header with seconds S and nanoseconds
U * 1000 (provided that nanosecond value fits the 32-bit field), and a
variant-C header whose current packet carries the same seconds and
nanoseconds as a variant-B header yields the B header's instant. -/
theorem getTime_microsecond_nanosecond_equiv (h1 : V1header) (h2 : V2header)
    (mem : Mem) (w : V3header)
    (hsec : h2.Sec = h1.Sec) (hnsec : h2.Nsec = h1.Usec * 1000)
    (_hrep : h1.Usec * 1000 < 2 ^ 32) :
    h1.getTime = h2.getTime ∧
    ((mem w.PacketAddr).Tp_sec = h2.Sec → (mem w.PacketAddr).Tp_nsec = h2.Nsec →
      V3header.getTime mem w = h2.getTime) := by
  constructor
  · simp [V1header.getTime, V2header.getTime, timeUnix, hsec, hnsec]
  · intro ha hb
    simp [V3header.getTime, V2header.getTime, timeUnix, ha, hb]

/-- C7 witness: S = 7, U = 5 — the variant-A header (7 s, 5 µs), the
variant-B header (7 s, 5000 ns) and a variant-C packet (7 s, 5000 ns)
all denote the same instant. -/
theorem getTime_microsecond_nanosecond_equiv_witness :
    V1header.getTime ⟨0, 0, 0, 0, 0, 7, 5, []⟩ =
      V2header.getTime ⟨0, 0, 0, 0, 0, 7, 5000, 0, 0, []⟩ ∧
    (((fun _ : Nat => (⟨0, 7, 5000, 0, 0, 0, 0, 0, ⟨0, 0, 0, 0⟩, []⟩ : TpPacket)) 48).Tp_sec =
        V2header.Sec ⟨0, 0, 0, 0, 0, 7, 5000, 0, 0, []⟩ →
      ((fun _ : Nat => (⟨0, 7, 5000, 0, 0, 0, 0, 0, ⟨0, 0, 0, 0⟩, []⟩ : TpPacket)) 48).Tp_nsec =
        V2header.Nsec ⟨0, 0, 0, 0, 0, 7, 5000, 0, 0, []⟩ →
      V3header.getTime (fun _ => ⟨0, 7, 5000, 0, 0, 0, 0, 0, ⟨0, 0, 0, 0⟩, []⟩)
          ⟨0, ⟨1, 3, 48, 512, 0, ⟨0, 0⟩, ⟨0, 0⟩⟩, 48, 0⟩ =
        V2header.getTime ⟨0, 0, 0, 0, 0, 7, 5000, 0, 0, []⟩) :=
  getTime_microsecond_nanosecond_equiv ⟨0, 0, 0, 0, 0, 7, 5, []⟩
    ⟨0, 0, 0, 0, 0, 7, 5000, 0, 0, []⟩
    (fun _ => ⟨0, 7, 5000, 0, 0, 0, 0, 0, ⟨0, 0, 0, 0⟩, []⟩)
    ⟨0, ⟨1, 3, 48, 512, 0, ⟨0, 0⟩, ⟨0, 0⟩⟩, 48, 0⟩
    rfl rfl (by decide)

/-- Helper: next fails exactly when the incremented (wrapping uint32)
cursor has reached the block's declared packet count. -/
lemma V3next_false_iff (mem : Mem) (w : V3header) :
    (V3header.next mem w).1 = false ↔ w.Blockhdr.NumPkts ≤ (w.used + 1) % 2 ^ 32 := by
  simp only [V3header.next]
  split
  · simpa
  · simp only [Bool.true_eq_false, false_iff]
    omega

/-- Helper: next always stores the incremented (wrapping uint32) cursor. -/
lemma V3next_used (mem : Mem) (w : V3header) :
    (V3header.next mem w).2.used = (w.used + 1) % 2 ^ 32 := by
  simp only [V3header.next]
  split <;> rfl

/-- Helper: next never touches the block header. -/
lemma V3next_blockhdr (mem : Mem) (w : V3header) :
    (V3header.next mem w).2.Blockhdr = w.Blockhdr := by
  simp only [V3header.next]
  split <;> rfl

/-- C2: with a fresh cursor over a block declaring 3 packets, next
returns true, true, then false on the third call; with a block
declaring 1 packet, the very first call returns false; and in general
next returns false exactly when the incremented cursor reaches (i.e.
is no longer below) the declared packet count — under the iteration
contract (cursor still below the count before the call) "reaches"
is exact equality. -/
theorem v3_next_exhaustion (mem : Mem) (w w3 : V3header)
    (h3used : w3.used = 0) (hwrap : w.used + 1 < 2 ^ 32) :
    (w3.Blockhdr.NumPkts = 3 →
      (V3header.next mem w3).1 = true ∧
      (V3header.next mem (V3header.next mem w3).2).1 = true ∧
      (V3header.next mem (V3header.next mem (V3header.next mem w3).2).2).1 = false) ∧
    (w3.Blockhdr.NumPkts = 1 → (V3header.next mem w3).1 = false) ∧
    ((V3header.next mem w).1 = false ↔ w.Blockhdr.NumPkts ≤ w.used + 1) ∧
    (w.used < w.Blockhdr.NumPkts →
      ((V3header.next mem w).1 = false ↔ w.used + 1 = w.Blockhdr.NumPkts)) := by
  have hgen : ∀ w' : V3header, w'.used + 1 < 2 ^ 32 →
      ((V3header.next mem w').1 = false ↔ w'.Blockhdr.NumPkts ≤ w'.used + 1) := by
    intro w' hw'
    rw [V3next_false_iff, Nat.mod_eq_of_lt hw']
  have btrue : ∀ {b : Bool} {p : Prop}, (b = false ↔ p) → ¬ p → b = true := by
    intro b p h hp
    cases b
    · exact absurd (h.mp rfl) hp
    · rfl
  refine ⟨?_, ?_, hgen w hwrap, ?_⟩
  · intro h3
    have s1 := V3next_used mem w3
    have b1 := V3next_blockhdr mem w3
    have s2 := V3next_used mem (V3header.next mem w3).2
    have b2 := V3next_blockhdr mem (V3header.next mem w3).2
    have g1 := hgen w3 (by rw [h3used]; omega)
    rw [h3used, h3] at g1
    have g2 := hgen (V3header.next mem w3).2 (by rw [s1, h3used]; omega)
    rw [s1, b1, h3used, h3] at g2
    have g3 := hgen (V3header.next mem (V3header.next mem w3).2).2
      (by rw [s2, s1, h3used]; omega)
    rw [s2, s1, b2, b1, h3used, h3] at g3
    exact ⟨btrue g1 (by omega), btrue g2 (by omega), g3.mpr (by omega)⟩
  · intro h1
    have g := hgen w3 (by rw [h3used]; omega)
    rw [h3used, h1] at g
    exact g.mpr (by omega)
  · intro hlt
    rw [hgen w hwrap]
    omega

/-- C2 witness: a fresh variant-C view over a block declaring 3 packets
(with nonzero forward offsets) advances true, true, false; a fresh view
over a block declaring 1 packet fails immediately; and the general
exhaustion condition holds at the 3-packet view. -/
theorem v3_next_exhaustion_witness :
    ((⟨0, ⟨1, 3, 48, 512, 0, ⟨0, 0⟩, ⟨0, 0⟩⟩, 48, 0⟩ : V3header).Blockhdr.NumPkts = 3 →
      (V3header.next (fun _ => ⟨160, 9, 9, 96, 100, 0, 66, 80, ⟨0, 0, 0, 0⟩, []⟩)
        ⟨0, ⟨1, 3, 48, 512, 0, ⟨0, 0⟩, ⟨0, 0⟩⟩, 48, 0⟩).1 = true ∧
      (V3header.next (fun _ => ⟨160, 9, 9, 96, 100, 0, 66, 80, ⟨0, 0, 0, 0⟩, []⟩)
        (V3header.next (fun _ => ⟨160, 9, 9, 96, 100, 0, 66, 80, ⟨0, 0, 0, 0⟩, []⟩)
          ⟨0, ⟨1, 3, 48, 512, 0, ⟨0, 0⟩, ⟨0, 0⟩⟩, 48, 0⟩).2).1 = true ∧
      (V3header.next (fun _ => ⟨160, 9, 9, 96, 100, 0, 66, 80, ⟨0, 0, 0, 0⟩, []⟩)
        (V3header.next (fun _ => ⟨160, 9, 9, 96, 100, 0, 66, 80, ⟨0, 0, 0, 0⟩, []⟩)
          (V3header.next (fun _ => ⟨160, 9, 9, 96, 100, 0, 66, 80, ⟨0, 0, 0, 0⟩, []⟩)
            ⟨0, ⟨1, 3, 48, 512, 0, ⟨0, 0⟩, ⟨0, 0⟩⟩, 48, 0⟩).2).2).1 = false) ∧
    ((⟨0, ⟨1, 3, 48, 512, 0, ⟨0, 0⟩, ⟨0, 0⟩⟩, 48, 0⟩ : V3header).Blockhdr.NumPkts = 1 →
      (V3header.next (fun _ => ⟨160, 9, 9, 96, 100, 0, 66, 80, ⟨0, 0, 0, 0⟩, []⟩)
        ⟨0, ⟨1, 3, 48, 512, 0, ⟨0, 0⟩, ⟨0, 0⟩⟩, 48, 0⟩).1 = false) ∧
    ((V3header.next (fun _ => ⟨160, 9, 9, 96, 100, 0, 66, 80, ⟨0, 0, 0, 0⟩, []⟩)
        ⟨0, ⟨1, 1, 48, 512, 0, ⟨0, 0⟩, ⟨0, 0⟩⟩, 48, 0⟩).1 = false ↔
      (⟨0, ⟨1, 1, 48, 512, 0, ⟨0, 0⟩, ⟨0, 0⟩⟩, 48, 0⟩ : V3header).Blockhdr.NumPkts ≤
        (⟨0, ⟨1, 1, 48, 512, 0, ⟨0, 0⟩, ⟨0, 0⟩⟩, 48, 0⟩ : V3header).used + 1) ∧
    ((⟨0, ⟨1, 1, 48, 512, 0, ⟨0, 0⟩, ⟨0, 0⟩⟩, 48, 0⟩ : V3header).used <
        (⟨0, ⟨1, 1, 48, 512, 0, ⟨0, 0⟩, ⟨0, 0⟩⟩, 48, 0⟩ : V3header).Blockhdr.NumPkts →
      ((V3header.next (fun _ => ⟨160, 9, 9, 96, 100, 0, 66, 80, ⟨0, 0, 0, 0⟩, []⟩)
          ⟨0, ⟨1, 1, 48, 512, 0, ⟨0, 0⟩, ⟨0, 0⟩⟩, 48, 0⟩).1 = false ↔
        (⟨0, ⟨1, 1, 48, 512, 0, ⟨0, 0⟩, ⟨0, 0⟩⟩, 48, 0⟩ : V3header).used + 1 =
          (⟨0, ⟨1, 1, 48, 512, 0, ⟨0, 0⟩, ⟨0, 0⟩⟩, 48, 0⟩ : V3header).Blockhdr.NumPkts)) :=
  v3_next_exhaustion (fun _ => ⟨160, 9, 9, 96, 100, 0, 66, 80, ⟨0, 0, 0, 0⟩, []⟩)
    ⟨0, ⟨1, 1, 48, 512, 0, ⟨0, 0⟩, ⟨0, 0⟩⟩, 48, 0⟩
    ⟨0, ⟨1, 3, 48, 512, 0, ⟨0, 0⟩, ⟨0, 0⟩⟩, 48, 0⟩ rfl (by decide)

/-- C3: when the incremented cursor is still below the block's packet
count, next returns true and repositions the current-packet pointer to
the current packet's address plus its next-offset field when that field
is nonzero, and otherwise to the current packet's address plus the
captured length + payload offset rounded up to the next multiple of 16
(the alignment of C5). The side conditions keep the uint32 cursor and
the uintptr address arithmetic out of their wrap-around range. -/
theorem v3_next_reposition (mem : Mem) (w : V3header)
    (hwrap : w.used + 1 < 2 ^ 32)
    (hnotdone : w.used + 1 < w.Blockhdr.NumPkts)
    (haddr1 : w.PacketAddr + (mem w.PacketAddr).TpNextOffset < 2 ^ 64)
    (haddr2 : w.PacketAddr +
      ((mem w.PacketAddr).Tp_snaplen + (mem w.PacketAddr).Tp_mac + 15) / 16 * 16 < 2 ^ 64)
    (hfield : (mem w.PacketAddr).Tp_snaplen + (mem w.PacketAddr).Tp_mac + 15 < 2 ^ 63) :
    (V3header.next mem w).1 = true ∧
    (V3header.next mem w).2.PacketAddr =
      (if (mem w.PacketAddr).TpNextOffset ≠ 0 then
        w.PacketAddr + (mem w.PacketAddr).TpNextOffset
      else
        w.PacketAddr +
          ((mem w.PacketAddr).Tp_snaplen + (mem w.PacketAddr).Tp_mac + 15) / 16 * 16) := by
  have halign : goUint64OfInt
      (tpAlign (((mem w.PacketAddr).Tp_snaplen : Int) + ((mem w.PacketAddr).Tp_mac : Int))) =
      ((mem w.PacketAddr).Tp_snaplen + (mem w.PacketAddr).Tp_mac + 15) / 16 * 16 := by
    have hc : ((mem w.PacketAddr).Tp_snaplen : Int) + ((mem w.PacketAddr).Tp_mac : Int) =
        (((mem w.PacketAddr).Tp_snaplen + (mem w.PacketAddr).Tp_mac : Nat) : Int) := by
      push_cast
      ring
    rw [hc, tpAlign_ofNat hfield, goUint64OfInt_ofNat (by omega)]
  have hguard : ¬ w.Blockhdr.NumPkts ≤ (w.used + 1) % 2 ^ 32 := by
    rw [Nat.mod_eq_of_lt hwrap]
    omega
  simp only [V3header.next, hguard, if_false]
  refine ⟨trivial, ?_⟩
  split
  · exact Nat.mod_eq_of_lt haddr1
  · rw [halign]
    exact Nat.mod_eq_of_lt haddr2

/-- C3 witness: at a concrete two-packet view the pointer moves by the
explicit next-offset 160 when it is nonzero, and for a packet record
with next-offset 0, captured length 96 and payload offset 66 the
aligned step is (96 + 66 + 15) / 16 * 16 = 176. -/
theorem v3_next_reposition_witness :
    (V3header.next (fun _ => ⟨0, 9, 9, 96, 100, 0, 66, 80, ⟨0, 0, 0, 0⟩, []⟩)
      ⟨0, ⟨1, 3, 48, 512, 0, ⟨0, 0⟩, ⟨0, 0⟩⟩, 48, 0⟩).1 = true ∧
    (V3header.next (fun _ => ⟨0, 9, 9, 96, 100, 0, 66, 80, ⟨0, 0, 0, 0⟩, []⟩)
      ⟨0, ⟨1, 3, 48, 512, 0, ⟨0, 0⟩, ⟨0, 0⟩⟩, 48, 0⟩).2.PacketAddr =
      (if ((fun _ : Nat => (⟨0, 9, 9, 96, 100, 0, 66, 80, ⟨0, 0, 0, 0⟩, []⟩ : TpPacket)) 48).TpNextOffset ≠ 0 then
        48 + ((fun _ : Nat => (⟨0, 9, 9, 96, 100, 0, 66, 80, ⟨0, 0, 0, 0⟩, []⟩ : TpPacket)) 48).TpNextOffset
      else
        48 + (((fun _ : Nat => (⟨0, 9, 9, 96, 100, 0, 66, 80, ⟨0, 0, 0, 0⟩, []⟩ : TpPacket)) 48).Tp_snaplen +
          ((fun _ : Nat => (⟨0, 9, 9, 96, 100, 0, 66, 80, ⟨0, 0, 0, 0⟩, []⟩ : TpPacket)) 48).Tp_mac + 15) / 16 * 16) :=
  v3_next_reposition (fun _ => ⟨0, 9, 9, 96, 100, 0, 66, 80, ⟨0, 0, 0, 0⟩, []⟩)
    ⟨0, ⟨1, 3, 48, 512, 0, ⟨0, 0⟩, ⟨0, 0⟩⟩, 48, 0⟩
    (by decide) (by decide) (by decide) (by decide) (by decide)

/-- C8: the cursor moves only forward — next always stores exactly the
incremented cursor — and as long as next is not called on an already
exhausted view (after a false return the cursor is at or past the
packet count, so the contract of not calling again is the hypothesis
cursor < packet count), the new cursor never exceeds the block's
declared packet count; moreover a true return leaves the cursor
strictly below the count, re-establishing that hypothesis. -/
theorem v3_cursor_monotone_bounded (mem : Mem) (w : V3header)
    (hwrap : w.used + 1 < 2 ^ 32) :
    w.used ≤ (V3header.next mem w).2.used ∧
    (V3header.next mem w).2.used = w.used + 1 ∧
    (w.used < w.Blockhdr.NumPkts →
      (V3header.next mem w).2.used ≤ w.Blockhdr.NumPkts) ∧
    ((V3header.next mem w).1 = true →
      (V3header.next mem w).2.used < w.Blockhdr.NumPkts) := by
  have hu : (V3header.next mem w).2.used = w.used + 1 := by
    rw [V3next_used, Nat.mod_eq_of_lt hwrap]
  refine ⟨by omega, hu, by omega, ?_⟩
  intro htrue
  have hf := V3next_false_iff mem w
  rw [Nat.mod_eq_of_lt hwrap] at hf
  rw [hu]
  rcases Nat.lt_or_ge (w.used + 1) w.Blockhdr.NumPkts with h | h
  · exact h
  · rw [hf.mpr h] at htrue
    exact absurd htrue (by simp)

/-- C8 witness: at a fresh two-packet view the cursor goes from 0 to 1,
stays within the bound 2, and the true return re-establishes
cursor < packet count. -/
theorem v3_cursor_monotone_bounded_witness :
    (⟨0, ⟨1, 2, 48, 512, 0, ⟨0, 0⟩, ⟨0, 0⟩⟩, 48, 0⟩ : V3header).used ≤
      (V3header.next (fun _ => ⟨160, 9, 9, 96, 100, 0, 66, 80, ⟨0, 0, 0, 0⟩, []⟩)
        ⟨0, ⟨1, 2, 48, 512, 0, ⟨0, 0⟩, ⟨0, 0⟩⟩, 48, 0⟩).2.used ∧
    (V3header.next (fun _ => ⟨160, 9, 9, 96, 100, 0, 66, 80, ⟨0, 0, 0, 0⟩, []⟩)
      ⟨0, ⟨1, 2, 48, 512, 0, ⟨0, 0⟩, ⟨0, 0⟩⟩, 48, 0⟩).2.used =
      (⟨0, ⟨1, 2, 48, 512, 0, ⟨0, 0⟩, ⟨0, 0⟩⟩, 48, 0⟩ : V3header).used + 1 ∧
    ((⟨0, ⟨1, 2, 48, 512, 0, ⟨0, 0⟩, ⟨0, 0⟩⟩, 48, 0⟩ : V3header).used <
        (⟨0, ⟨1, 2, 48, 512, 0, ⟨0, 0⟩, ⟨0, 0⟩⟩, 48, 0⟩ : V3header).Blockhdr.NumPkts →
      (V3header.next (fun _ => ⟨160, 9, 9, 96, 100, 0, 66, 80, ⟨0, 0, 0, 0⟩, []⟩)
        ⟨0, ⟨1, 2, 48, 512, 0, ⟨0, 0⟩, ⟨0, 0⟩⟩, 48, 0⟩).2.used ≤
        (⟨0, ⟨1, 2, 48, 512, 0, ⟨0, 0⟩, ⟨0, 0⟩⟩, 48, 0⟩ : V3header).Blockhdr.NumPkts) ∧
    ((V3header.next (fun _ => ⟨160, 9, 9, 96, 100, 0, 66, 80, ⟨0, 0, 0, 0⟩, []⟩)
        ⟨0, ⟨1, 2, 48, 512, 0, ⟨0, 0⟩, ⟨0, 0⟩⟩, 48, 0⟩).1 = true →
      (V3header.next (fun _ => ⟨160, 9, 9, 96, 100, 0, 66, 80, ⟨0, 0, 0, 0⟩, []⟩)
        ⟨0, ⟨1, 2, 48, 512, 0, ⟨0, 0⟩, ⟨0, 0⟩⟩, 48, 0⟩).2.used <
        (⟨0, ⟨1, 2, 48, 512, 0, ⟨0, 0⟩, ⟨0, 0⟩⟩, 48, 0⟩ : V3header).Blockhdr.NumPkts) :=
  v3_cursor_monotone_bounded (fun _ => ⟨160, 9, 9, 96, 100, 0, 66, 80, ⟨0, 0, 0, 0⟩, []⟩)
    ⟨0, ⟨1, 2, 48, 512, 0, ⟨0, 0⟩, ⟨0, 0⟩⟩, 48, 0⟩ (by decide)

/-- C4: insertVlanHeader returns the payload itself when the TCI is
zero or the option is off; otherwise, for payloads of at least 12
bytes, it returns a payload 4 bytes longer whose first 12 bytes are
unchanged, whose bytes 12..15 are 0x81, 0x00 and the TCI big-endian,
and whose remaining bytes are the original payload from byte 12 on. -/
theorem insertVlanHeader_spec (data : List Nat) (vlanTCI : Int) (opts : options) :
    ((vlanTCI = 0 ∨ opts.addVLANHeader = false) →
      insertVlanHeader data vlanTCI opts = some data) ∧
    (vlanTCI ≠ 0 → opts.addVLANHeader = true → 12 ≤ data.length →
      ∃ r, insertVlanHeader data vlanTCI opts = some r ∧
        r.length = data.length + 4 ∧
        r.take 12 = data.take 12 ∧
        (r.drop 12).take 4 =
          [0x81, 0, goByte ((vlanTCI >>> (8 : Int)).land 0xff), goByte (vlanTCI.land 0xff)] ∧
        r.drop 16 = data.drop 12) := by
  constructor
  · intro h
    unfold insertVlanHeader
    rw [if_pos h]
  · intro h1 h2 h3
    have hne : ¬ (vlanTCI = 0 ∨ opts.addVLANHeader = false) := by
      rintro (hc | hc)
      · exact h1 hc
      · rw [h2] at hc
        cases hc
    have hnlen : ¬ data.length < EthAlen * 2 := by
      simp only [EthAlen]
      omega
    have he : EthAlen * 2 = 12 := rfl
    unfold insertVlanHeader
    rw [if_neg hne, if_neg hnlen, he, List.append_assoc]
    have ht : (data.take 12).length = 12 := by
      rw [List.length_take]
      omega
    have htag : ([0x81, 0, goByte ((vlanTCI >>> (8 : Int)).land 0xff),
        goByte (vlanTCI.land 0xff)] : List Nat).length = 4 := rfl
    refine ⟨_, rfl, ?_, ?_, ?_, ?_⟩
    · simp only [List.length_append, List.length_drop, ht, htag]
      omega
    · exact List.take_left' ht
    · rw [List.drop_left' ht]
      exact List.take_left' htag
    · have h16 : (16 : Nat) = 12 + 4 := rfl
      rw [h16, ← List.drop_drop, List.drop_left' ht, List.drop_left' htag]

/-- C4 witness: a 14-byte payload with TCI 0x0ABC and the option on
gains the 4-byte tag after the two MAC addresses. -/
theorem insertVlanHeader_spec_witness :
    ∃ r, insertVlanHeader [1, 2, 3, 4, 5, 6, 7, 8, 9, 10, 11, 12, 13, 14] 0x0abc ⟨true⟩ = some r ∧
      r.length = ([1, 2, 3, 4, 5, 6, 7, 8, 9, 10, 11, 12, 13, 14] : List Nat).length + 4 ∧
      r.take 12 = ([1, 2, 3, 4, 5, 6, 7, 8, 9, 10, 11, 12, 13, 14] : List Nat).take 12 ∧
      (r.drop 12).take 4 =
        [0x81, 0, goByte (((0x0abc : Int) >>> (8 : Int)).land 0xff),
          goByte ((0x0abc : Int).land 0xff)] ∧
      r.drop 16 = ([1, 2, 3, 4, 5, 6, 7, 8, 9, 10, 11, 12, 13, 14] : List Nat).drop 12 :=
  (insertVlanHeader_spec [1, 2, 3, 4, 5, 6, 7, 8, 9, 10, 11, 12, 13, 14] 0x0abc ⟨true⟩).2
    (by decide) rfl (by decide)

/-- C10: with a nonzero TCI and the option enabled, insertVlanHeader
slices the first 12 bytes of the payload, so it panics (modelled as
none) exactly on payloads shorter than 12 bytes: totality at this
interface needs the precondition length ≥ 12. -/
theorem insertVlanHeader_needs_twelve_bytes (data : List Nat) (vlanTCI : Int)
    (h : vlanTCI ≠ 0) :
    insertVlanHeader data vlanTCI ⟨true⟩ = none ↔ data.length < 12 := by
  have hne : ¬ (vlanTCI = 0 ∨ options.addVLANHeader ⟨true⟩ = false) := by
    rintro (hc | hc)
    · exact h hc
    · cases hc
  unfold insertVlanHeader
  rw [if_neg hne]
  have he : EthAlen * 2 = 12 := rfl
  rw [he]
  split
  · simp_all
  · simp_all

/-- C10 witness: a 3-byte payload with TCI 5 makes insertVlanHeader
panic (none), matching 3 < 12. -/
theorem insertVlanHeader_needs_twelve_bytes_witness :
    insertVlanHeader [1, 2, 3] 5 ⟨true⟩ = none ↔ ([1, 2, 3] : List Nat).length < 12 :=
  insertVlanHeader_needs_twelve_bytes [1, 2, 3] 5 (by decide)

end Afpacket
